import Mathlib

/-!
Verification of the external-account credential lifecycle and order retrieval
pipeline of the Uni-test repository.

The definitions below are shallow embeddings of the JavaScript source:

* `ensureValidAccessToken` embeds the helper of `Backend/routes/amazon.js`
  (lines 15-49).  Times are modelled as integer milliseconds; the network call
  `refreshAccessToken` is modelled by passing its response (`TokenData`) as an
  argument, and the number of refresh requests actually issued is recorded in
  the result.
* `stepCaller` / `runCallers` give an interleaving semantics for two
  concurrent invocations of `ensureValidAccessToken` on the same credential:
  each `await` in the JavaScript body is a yield point, so the check of
  `tokenExpiresAt` and the write-back of the refreshed bundle are separate
  atomic steps.
* the Amazon SP-API service functions (`generateMockOrderData`,
  `getRestrictedDataToken`, `getSellerProfile`, `getOrderCount`,
  `getRecentOrders`, `fetchLoop`, `formatOrder`) embed the latest service
  variant of the repository.  Upstream HTTP behaviour is an explicit
  environment (`SpEnv`): a response or an HTTP status code per request, and
  the results of `Math.random` are a `MockRng`.
* the OAuth `state` encoding of the `/auth-url` and `/callback` routes is
  embedded together with executable models of the platform primitives it
  uses (base64 via `encodeB64`/`decodeB64`, the JSON fragment via
  `jsonStateChars`/`parseUserIdFromJson`).

JavaScript truthiness on optional strings (`undefined` and `""` are falsy) is
modelled by `truthy`.
-/

/-- JavaScript truthiness for an optional string value: `undefined`/absent and
the empty string are falsy. -/
def truthy : Option String → Bool
  | none => false
  | some s => s != ""

/-- The credential record `user.amazonAuth` (see the Mongo user model and
`routes/amazon.js`).  `tokenExpiresAt` and `connectedAt` are in milliseconds
since the epoch. -/
structure AmazonAuth where
  accessToken : String
  refreshToken : Option String
  tokenExpiresAt : Int
  sellerId : Option String
  connectedAt : Option Int
deriving DecidableEq

/-- The slice of the user document the credential code touches. -/
structure UserDoc where
  amazonAuth : Option AmazonAuth
deriving DecidableEq

/-- Response body of the token endpoint for a refresh grant
(`{access_token, refresh_token?, expires_in}`). -/
structure TokenData where
  access_token : String
  refresh_token : Option String
  expires_in : Int
deriving DecidableEq

/-- The five-minute expiry buffer of `ensureValidAccessToken`, in
milliseconds (`5 * 60 * 1000`). -/
def bufferTime : Int := 5 * 60 * 1000

/-- The credential after the write-back section of `ensureValidAccessToken`
(`routes/amazon.js` lines 36-42): new access token, expiry recomputed from
`now`, and the refresh token replaced only when the response carries a truthy
`refresh_token`. -/
def refreshedAuth (now : Int) (tokenData : TokenData) (auth : AmazonAuth) : AmazonAuth :=
  { auth with
    accessToken := tokenData.access_token
    tokenExpiresAt := now + tokenData.expires_in * 1000
    refreshToken :=
      if truthy tokenData.refresh_token then tokenData.refresh_token else auth.refreshToken }

/-- Outcome of one sequential run of `ensureValidAccessToken`: the returned
token or thrown error, the user document afterwards, and how many refresh
requests were sent to the token endpoint. -/
structure EnsureResult where
  result : Except String String
  user : UserDoc
  refreshCalls : Nat

/-- Shallow embedding of `ensureValidAccessToken` (`routes/amazon.js` lines
15-49) as a sequential function.  `now` is the current time and `tokenData`
the response the token endpoint would give to a refresh request. -/
def ensureValidAccessToken (now : Int) (tokenData : TokenData) (user : UserDoc) : EnsureResult :=
  match user.amazonAuth with
  | none => ⟨Except.error "Amazon account not connected", user, 0⟩
  | some auth =>
    if auth.accessToken = "" then
      ⟨Except.error "Amazon account not connected", user, 0⟩
    else if now > auth.tokenExpiresAt - bufferTime then
      if truthy auth.refreshToken then
        ⟨Except.ok tokenData.access_token,
          ⟨some (refreshedAuth now tokenData auth)⟩, 1⟩
      else
        ⟨Except.error "No refresh token available. Please reconnect your Amazon account.",
          user, 0⟩
    else
      ⟨Except.ok auth.accessToken, user, 0⟩

/-- C3: a credential whose expiry lies strictly more than five minutes in the
future is returned as-is: no refresh request is issued, the stored access
token is returned, and the user document is unchanged. -/
theorem ensureValidAccessToken_fresh_noRefresh
    (now : Int) (tokenData : TokenData) (user : UserDoc) (auth : AmazonAuth)
    (hAuth : user.amazonAuth = some auth)
    (hTok : auth.accessToken ≠ "")
    (hFresh : auth.tokenExpiresAt - now > bufferTime) :
    ensureValidAccessToken now tokenData user =
      ⟨Except.ok auth.accessToken, user, 0⟩ := by
  have hNotExpired : ¬ now > auth.tokenExpiresAt - bufferTime := by omega
  simp [ensureValidAccessToken, hAuth, hTok, hNotExpired]

/-- Witness for C3 at a concrete credential: expiry one hour in the future,
`now = 0`. -/
theorem ensureValidAccessToken_fresh_noRefresh_witness :
    ensureValidAccessToken 0 ⟨"new", some "r2", 3600⟩
        ⟨some ⟨"tok", some "r", 3600000, none, none⟩⟩ =
      ⟨Except.ok "tok", ⟨some ⟨"tok", some "r", 3600000, none, none⟩⟩, 0⟩ :=
  ensureValidAccessToken_fresh_noRefresh 0 ⟨"new", some "r2", 3600⟩
    ⟨some ⟨"tok", some "r", 3600000, none, none⟩⟩ ⟨"tok", some "r", 3600000, none, none⟩
    rfl (by decide) (by decide)

/-- C4: when `ensureValidAccessToken` refreshes, the updated credential has
the response access token and a recomputed expiry; a truthy `refresh_token`
in the response replaces the stored refresh token, an omitted one leaves it
exactly as before; `sellerId` and `connectedAt` are never touched. -/
theorem ensureValidAccessToken_rotation
    (now : Int) (tokenData : TokenData) (user : UserDoc) (auth : AmazonAuth)
    (hAuth : user.amazonAuth = some auth)
    (hTok : auth.accessToken ≠ "")
    (hExpired : now > auth.tokenExpiresAt - bufferTime)
    (hRt : truthy auth.refreshToken = true) :
    ∃ auth2, (ensureValidAccessToken now tokenData user).user.amazonAuth = some auth2
      ∧ (ensureValidAccessToken now tokenData user).refreshCalls = 1
      ∧ auth2.accessToken = tokenData.access_token
      ∧ auth2.tokenExpiresAt = now + tokenData.expires_in * 1000
      ∧ auth2.sellerId = auth.sellerId
      ∧ auth2.connectedAt = auth.connectedAt
      ∧ (tokenData.refresh_token = none → auth2.refreshToken = auth.refreshToken)
      ∧ (∀ r, tokenData.refresh_token = some r → r ≠ "" →
          auth2.refreshToken = some r) := by
  refine ⟨refreshedAuth now tokenData auth, ?_, ?_, rfl, rfl, rfl, rfl, ?_, ?_⟩
  · simp [ensureValidAccessToken, hAuth, hTok, hExpired, hRt]
  · simp [ensureValidAccessToken, hAuth, hTok, hExpired, hRt]
  · intro hNone
    simp [refreshedAuth, truthy, hNone]
  · intro r hSome hne
    simp [refreshedAuth, truthy, hSome, hne]

/-- Witness for C4: a concrete expired credential refreshed once with a
rotating response and once with a response that omits `refresh_token`. -/
theorem ensureValidAccessToken_rotation_witness :
    (∃ auth2, (ensureValidAccessToken 1000000 ⟨"new", some "r2", 3600⟩
          ⟨some ⟨"tok", some "r", 0, some "S1", some 5⟩⟩).user.amazonAuth = some auth2
      ∧ (ensureValidAccessToken 1000000 ⟨"new", some "r2", 3600⟩
          ⟨some ⟨"tok", some "r", 0, some "S1", some 5⟩⟩).refreshCalls = 1
      ∧ auth2.accessToken = "new"
      ∧ auth2.tokenExpiresAt = 1000000 + 3600 * 1000
      ∧ auth2.sellerId = some "S1"
      ∧ auth2.connectedAt = some 5
      ∧ ((some "r2" : Option String) = none → auth2.refreshToken = some "r")
      ∧ (∀ r, (some "r2" : Option String) = some r → r ≠ "" →
          auth2.refreshToken = some r))
    ∧ (∃ auth3, (ensureValidAccessToken 1000000 ⟨"new", none, 3600⟩
          ⟨some ⟨"tok", some "r", 0, some "S1", some 5⟩⟩).user.amazonAuth = some auth3
      ∧ (ensureValidAccessToken 1000000 ⟨"new", none, 3600⟩
          ⟨some ⟨"tok", some "r", 0, some "S1", some 5⟩⟩).refreshCalls = 1
      ∧ auth3.accessToken = "new"
      ∧ auth3.tokenExpiresAt = 1000000 + 3600 * 1000
      ∧ auth3.sellerId = some "S1"
      ∧ auth3.connectedAt = some 5
      ∧ ((none : Option String) = none → auth3.refreshToken = some "r")
      ∧ (∀ r, (none : Option String) = some r → r ≠ "" →
          auth3.refreshToken = some r)) :=
  ⟨ensureValidAccessToken_rotation 1000000 ⟨"new", some "r2", 3600⟩
      ⟨some ⟨"tok", some "r", 0, some "S1", some 5⟩⟩ ⟨"tok", some "r", 0, some "S1", some 5⟩
      rfl (by decide) (by decide) (by decide),
    ensureValidAccessToken_rotation 1000000 ⟨"new", none, 3600⟩
      ⟨some ⟨"tok", some "r", 0, some "S1", some 5⟩⟩ ⟨"tok", some "r", 0, some "S1", some 5⟩
      rfl (by decide) (by decide) (by decide)⟩

/-- Program counter of one asynchronous invocation of
`ensureValidAccessToken`: the body up to the `await refreshAccessToken(...)`
call runs atomically (`start`), the write-back after the await is a separate
step (`awaitRefresh`), and `done` is a finished invocation. -/
inductive CallerPC
  | start
  | awaitRefresh
  | done
deriving DecidableEq

/-- Shared state of two concurrent invocations of `ensureValidAccessToken`
for the same user: the user document, the number of refresh requests issued
so far, and each caller's program counter. -/
structure ConcState where
  user : UserDoc
  refreshCalls : Nat
  pc0 : CallerPC
  pc1 : CallerPC

/-- Set caller `i`'s program counter. -/
def setPC (i : Bool) (p : CallerPC) (s : ConcState) : ConcState :=
  if i then { s with pc1 := p } else { s with pc0 := p }

/-- One atomic step of caller `i`.  In `start` the caller performs the
connectivity and expiry checks of `ensureValidAccessToken` on the current
shared credential and, when a refresh is needed, issues the refresh request
(incrementing `refreshCalls`) and suspends; in `awaitRefresh` it writes the
refreshed bundle back.  There is no lock: nothing prevents the other caller
from running between the two steps. -/
def stepCaller (now : Int) (tokenData : TokenData) (s : ConcState) (i : Bool) : ConcState :=
  match (if i then s.pc1 else s.pc0) with
  | CallerPC.done => s
  | CallerPC.awaitRefresh =>
    match s.user.amazonAuth with
    | some auth =>
      setPC i CallerPC.done { s with user := ⟨some (refreshedAuth now tokenData auth)⟩ }
    | none => setPC i CallerPC.done s
  | CallerPC.start =>
    match s.user.amazonAuth with
    | none => setPC i CallerPC.done s
    | some auth =>
      if auth.accessToken = "" then setPC i CallerPC.done s
      else if now > auth.tokenExpiresAt - bufferTime then
        if truthy auth.refreshToken then
          setPC i CallerPC.awaitRefresh { s with refreshCalls := s.refreshCalls + 1 }
        else setPC i CallerPC.done s
      else setPC i CallerPC.done s

/-- Run a schedule (a sequence of caller identifiers) from a state. -/
def runCallers (now : Int) (tokenData : TokenData) (sched : List Bool) (s : ConcState) : ConcState :=
  sched.foldl (stepCaller now tokenData) s

/-- Initial state: both callers about to enter `ensureValidAccessToken`. -/
def initConc (user : UserDoc) : ConcState :=
  ⟨user, 0, CallerPC.start, CallerPC.start⟩

/-- C1 counterexample: two concurrent callers on the same expired credential,
interleaved so that both run their expiry check before either write-back,
issue two refresh requests — not the single refresh the claim demands.
`ensureValidAccessToken` takes no per-credential lock, so this schedule is
possible. -/
theorem refresh_singleFlight_counterexample :
    (runCallers 1000000 ⟨"new", some "r2", 3600⟩ [false, true, false, true]
        (initConc ⟨some ⟨"tok", some "r", 0, none, none⟩⟩)).refreshCalls = 2
    ∧ (2 : Nat) ≠ 1 := by
  constructor
  · rfl
  · decide

/-- Credit of unstarted callers: used to bound the number of refresh calls. -/
def startCredit (s : ConcState) : Nat :=
  (if s.pc0 = CallerPC.start then 1 else 0) + (if s.pc1 = CallerPC.start then 1 else 0)

/-- Each step preserves `refreshCalls + startCredit`: a refresh request is
only ever issued by a caller leaving its `start` state. -/
theorem stepCaller_credit (now : Int) (tokenData : TokenData) (s : ConcState) (i : Bool) :
    (stepCaller now tokenData s i).refreshCalls + startCredit (stepCaller now tokenData s i)
      ≤ s.refreshCalls + startCredit s := by
  rcases s with ⟨⟨(_ | auth)⟩, calls, pc0, pc1⟩ <;>
    cases i <;> rcases pc0 <;> rcases pc1 <;>
      simp only [stepCaller, setPC, startCredit, Bool.false_eq_true, if_true, if_false,
        reduceIte] <;>
      try split_ifs <;> simp_all [startCredit]

/-- The credit invariant holds along any schedule. -/
theorem runCallers_credit (now : Int) (tokenData : TokenData) :
    ∀ (sched : List Bool) (s : ConcState),
      (runCallers now tokenData sched s).refreshCalls
          + startCredit (runCallers now tokenData sched s)
        ≤ s.refreshCalls + startCredit s := by
  intro sched
  induction sched with
  | nil => intro s; exact le_refl _
  | cons i rest ih =>
    intro s
    calc (runCallers now tokenData (i :: rest) s).refreshCalls
          + startCredit (runCallers now tokenData (i :: rest) s)
        ≤ (stepCaller now tokenData s i).refreshCalls
            + startCredit (stepCaller now tokenData s i) := ih _
      _ ≤ s.refreshCalls + startCredit s := stepCaller_credit now tokenData s i

/-- C1 amended: a single sequential invocation of `ensureValidAccessToken`
on an expired credential issues exactly one refresh request, but concurrent
invocations are not serialized — each of two concurrent callers may issue its
own refresh, so a schedule can produce up to two refresh requests (and the
counterexample schedule produces exactly two). -/
theorem refresh_perCaller_bound
    (now : Int) (tokenData : TokenData) (user : UserDoc) (auth : AmazonAuth)
    (hAuth : user.amazonAuth = some auth)
    (hTok : auth.accessToken ≠ "")
    (hExpired : now > auth.tokenExpiresAt - bufferTime)
    (hRt : truthy auth.refreshToken = true) :
    (ensureValidAccessToken now tokenData user).refreshCalls = 1
    ∧ ∀ sched : List Bool,
        (runCallers now tokenData sched (initConc user)).refreshCalls ≤ 2 := by
  constructor
  · simp [ensureValidAccessToken, hAuth, hTok, hExpired, hRt]
  · intro sched
    have h := runCallers_credit now tokenData sched (initConc user)
    have h2 : (initConc user).refreshCalls + startCredit (initConc user) = 2 := by
      simp [initConc, startCredit]
    omega

/-- Witness for the amended C1 at the counterexample credential. -/
theorem refresh_perCaller_bound_witness :
    (ensureValidAccessToken 1000000 ⟨"new", some "r2", 3600⟩
        ⟨some ⟨"tok", some "r", 0, none, none⟩⟩).refreshCalls = 1
    ∧ ∀ sched : List Bool,
        (runCallers 1000000 ⟨"new", some "r2", 3600⟩ sched
            (initConc ⟨some ⟨"tok", some "r", 0, none, none⟩⟩)).refreshCalls ≤ 2 :=
  refresh_perCaller_bound 1000000 ⟨"new", some "r2", 3600⟩
    ⟨some ⟨"tok", some "r", 0, none, none⟩⟩ ⟨"tok", some "r", 0, none, none⟩
    rfl (by decide) (by decide) (by decide)

/-- `OrderTotal` of an upstream order: `{CurrencyCode, Amount}`. -/
structure OrderTotalV where
  CurrencyCode : String
  Amount : String
deriving DecidableEq

/-- An upstream order record as returned in `payload.Orders[]`. -/
structure UpOrder where
  AmazonOrderId : String
  PurchaseDate : Option String
  OrderStatus : Option String
  OrderTotal : Option OrderTotalV
deriving DecidableEq

/-- One page of the order endpoint: `payload.Orders` and `payload.NextToken`. -/
structure Page where
  Orders : List UpOrder
  NextToken : Option String
deriving DecidableEq

/-- The public order shape produced by `getRecentOrders`
(`{orderId, orderDate, status, amount}`). -/
structure OrderRecord where
  orderId : String
  orderDate : String
  status : String
  amount : String
deriving DecidableEq

/-- The per-order mapping of `getRecentOrders` (service, formatting step):
date truncated at the first `"T"`, status defaulting to `"Unknown"`, and the
amount either `"CurrencyCode Amount"` or the `"N/A"` marker. -/
def formatOrder (o : UpOrder) : OrderRecord :=
  { orderId := o.AmazonOrderId
    orderDate :=
      match o.PurchaseDate with
      | some d => if d = "" then "N/A" else (d.splitOn "T").headD ""
      | none => "N/A"
    status :=
      match o.OrderStatus with
      | some s => if s = "" then "Unknown" else s
      | none => "Unknown"
    amount :=
      match o.OrderTotal with
      | some t => t.CurrencyCode ++ " " ++ t.Amount
      | none => "N/A" }

/-- A synthetic order produced by `generateMockOrderData`.  `orderDate` is a
day count (the generator only ever subtracts whole days from today). -/
structure MockOrder where
  orderId : String
  orderDate : Int
  status : String
  amount : String
deriving DecidableEq

/-- The outcomes of the `Math.random()` draws `generateMockOrderData`
consumes: `countRand` is `Math.floor(Math.random() * 20)`, and per order
index the day offset, status index, random id and random amount. -/
structure MockRng where
  countRand : Nat
  daysAgo : Nat → Nat
  statusIdx : Nat → Nat
  orderIdStr : Nat → String
  amountStr : Nat → String

/-- The fixed status pool of `generateMockOrderData`. -/
def statuses : List String := ["Shipped", "Pending", "Delivered", "Cancelled"]

/-- Descending-date comparison used by the final `sort` of
`generateMockOrderData`. -/
def mockDateDesc (a b : MockOrder) : Prop := b.orderDate ≤ a.orderDate

instance : DecidableRel mockDateDesc := fun a b =>
  inferInstanceAs (Decidable (b.orderDate ≤ a.orderDate))

instance : IsTotal MockOrder mockDateDesc :=
  ⟨fun a b => le_total b.orderDate a.orderDate⟩

instance : IsTrans MockOrder mockDateDesc :=
  ⟨fun _ _ _ h1 h2 => le_trans h2 h1⟩

/-- Shallow embedding of `generateMockOrderData`: between 5 and 24 orders,
each dated a random number of days (0-29) before today, with a random status
from the fixed pool and an `"INR ..."` amount, sorted descending by date. -/
def generateMockOrderData (today : Int) (rng : MockRng) : List MockOrder :=
  List.insertionSort mockDateDesc
    ((List.range (rng.countRand + 5)).map (fun i =>
      { orderId := "TEST-" ++ rng.orderIdStr i
        orderDate := today - rng.daysAgo i
        status := statuses.getD (rng.statusIdx i) "Shipped"
        amount := "INR " ++ rng.amountStr i }))

/-- Failure classes of a network call, as named by the spec for the
restricted-data-token step: auth, network or permission failures. -/
inductive SpFailure
  | auth
  | network
  | permission
deriving DecidableEq

/-- The error classification `getRecentOrders`/`getOrderCount` throw after
catching an upstream failure. -/
inductive SpError
  | accessDenied
  | authenticationFailed
  | rateLimited
  | generic
deriving DecidableEq

/-- Shallow embedding of `getRestrictedDataToken`: the upstream outcome of
the RDT request is `outcome`; every failure (and a missing access token) is
caught and mapped to `none` — the function never throws. -/
def getRestrictedDataToken (accessToken : String) (outcome : Except SpFailure String) :
    Option String :=
  if accessToken = "" then none
  else
    match outcome with
    | Except.ok t => some t
    | Except.error _ => none

/-- The `x-amz-access-token` header value used by the order requests:
`restrictedToken || accessToken`. -/
def xAmzHeader (accessToken : String) (rdt : Option String) : String :=
  match rdt with
  | some t => if t = "" then accessToken else t
  | none => accessToken

/-- Result of `getSellerProfile`. -/
structure SellerProfile where
  marketplaces : Nat
  hasAccess : Bool
deriving DecidableEq

/-- Shallow embedding of `getSellerProfile` (the marketplace-participation
probe): a successful response with `n` participations yields
`{marketplaces := n, hasAccess := true}`; any failure is caught and yields
`{marketplaces := 0, hasAccess := false}`. -/
def getSellerProfile (outcome : Except SpFailure Nat) : SellerProfile :=
  match outcome with
  | Except.ok n => ⟨n, true⟩
  | Except.error _ => ⟨0, false⟩

/-- Upstream environment of one service call: the result of the
`checkOrdersApiAccess` probe, the RDT request outcome, the participation
probe outcome, the response to the single order-count request and to each
page request of the pagination loop (per `x-amz-access-token` header value
and page index; an `error` is the HTTP status of a failed request), today's
date, and independent `Math.random` draw sequences for each call site of
`generateMockOrderData` (`rngA`/`rngB` for `getOrderCount`, `rngC`/`rngD`
for `getRecentOrders`). -/
structure SpEnv where
  accessToken : String
  checkAccess : Bool
  rdtOutcome : Except SpFailure String
  profileOutcome : Except SpFailure Nat
  countFetch : String → Except Nat (List UpOrder)
  fetch : String → Nat → Except Nat Page
  today : Int
  rngA : MockRng
  rngB : MockRng
  rngC : MockRng
  rngD : MockRng

/-- The `x-amz-access-token` header the pipeline ends up using: the
restricted data token when one was obtained, the base access token
otherwise. -/
def rdtHeader (env : SpEnv) : String :=
  xAmzHeader env.accessToken (getRestrictedDataToken env.accessToken env.rdtOutcome)

/-- The pagination loop of `getRecentOrders`: fetch a page, stop on an empty
page, append, and continue only while a continuation cursor is present and
fewer than 200 orders are accumulated.  Returns the accumulated orders and
the number of page requests issued, or the HTTP status of a failed page
request. -/
def fetchLoop (up : Nat → Except Nat Page) (i : Nat) (acc : List UpOrder) :
    Except Nat (List UpOrder × Nat) :=
  match up i with
  | Except.error e => Except.error e
  | Except.ok page =>
    if page.Orders.length = 0 then Except.ok (acc, 1)
    else if truthy page.NextToken then
      (if _h : (acc ++ page.Orders).length < 200 then
        match fetchLoop up (i + 1) (acc ++ page.Orders) with
        | Except.error e => Except.error e
        | Except.ok (res, n) => Except.ok (res, n + 1)
      else Except.ok (acc ++ page.Orders, 1))
    else Except.ok (acc ++ page.Orders, 1)
termination_by 200 - acc.length
decreasing_by
  simp only [List.length_append] at *
  omega

/-- Unfolding equation for `fetchLoop` (it is defined by well-founded
recursion, so this is proved from its equation lemma). -/
theorem fetchLoop_eq (up : Nat → Except Nat Page) (i : Nat) (acc : List UpOrder) :
    fetchLoop up i acc =
      match up i with
      | Except.error e => Except.error e
      | Except.ok page =>
        if page.Orders.length = 0 then Except.ok (acc, 1)
        else if truthy page.NextToken then
          (if _h : (acc ++ page.Orders).length < 200 then
            match fetchLoop up (i + 1) (acc ++ page.Orders) with
            | Except.error e => Except.error e
            | Except.ok (res, n) => Except.ok (res, n + 1)
          else Except.ok (acc ++ page.Orders, 1))
        else Except.ok (acc ++ page.Orders, 1) := by
  rw [fetchLoop]

/-- The part of `getRecentOrders` after the access probe: run the pagination
loop with the chosen header token, format the accumulated orders, and on
failure classify the status — a 403 falls back to synthetic data when the
participation probe succeeds and to an access-denied error otherwise. -/
def recentOrdersLoop (env : SpEnv) (xTok : String) : Except SpError (List OrderRecord ⊕ List MockOrder) :=
  match fetchLoop (env.fetch xTok) 0 [] with
  | Except.ok (allOrders, _) => Except.ok (Sum.inl (allOrders.map formatOrder))
  | Except.error 403 =>
    if (getSellerProfile env.profileOutcome).hasAccess then
      Except.ok (Sum.inr (generateMockOrderData env.today env.rngD))
    else Except.error SpError.accessDenied
  | Except.error 401 => Except.error SpError.authenticationFailed
  | Except.error 429 => Except.error SpError.rateLimited
  | Except.error _ => Except.error SpError.generic

/-- Shallow embedding of `getRecentOrders` (service, latest variant): a
missing access token is a generic failure; a failing `checkOrdersApiAccess`
probe short-circuits to synthetic data; otherwise the paginated fetch runs
with the RDT-or-base header token. -/
def getRecentOrders (env : SpEnv) : Except SpError (List OrderRecord ⊕ List MockOrder) :=
  if env.accessToken = "" then Except.error SpError.generic
  else if env.checkAccess = false then
    Except.ok (Sum.inr (generateMockOrderData env.today env.rngC))
  else recentOrdersLoop env (rdtHeader env)

/-- The part of `getOrderCount` after the access probe: a single order
request (page size 100) whose response length is the count; failures are
classified exactly as in `getRecentOrders`, with the 403 fallback returning
the length of a freshly generated synthetic set. -/
def orderCountFetch (env : SpEnv) (xTok : String) : Except SpError Nat :=
  match env.countFetch xTok with
  | Except.ok orders => Except.ok orders.length
  | Except.error 403 =>
    if (getSellerProfile env.profileOutcome).hasAccess then
      Except.ok (generateMockOrderData env.today env.rngB).length
    else Except.error SpError.accessDenied
  | Except.error 401 => Except.error SpError.authenticationFailed
  | Except.error 429 => Except.error SpError.rateLimited
  | Except.error _ => Except.error SpError.generic

/-- Shallow embedding of `getOrderCount` (service, latest variant): it issues
its own single order request and returns that response's length — it does not
reuse the pagination loop of `getRecentOrders`. -/
def getOrderCount (env : SpEnv) : Except SpError Nat :=
  if env.accessToken = "" then Except.error SpError.generic
  else if env.checkAccess = false then
    Except.ok (generateMockOrderData env.today env.rngA).length
  else orderCountFetch env (rdtHeader env)

/-- A status drawn from `statuses` by a bounded index lies in the pool. -/
theorem statuses_getD_mem (n : Nat) (hn : n < 4) : statuses.getD n "Shipped" ∈ statuses := by
  interval_cases n <;> decide

/-- Properties of the synthetic data: for any `Math.random` outcomes within
their real ranges, the generated set is non-empty, every status is from the
fixed pool, every date lies within the last 30 days, and the list is sorted
descending by date. -/
theorem generateMockOrderData_spec (today : Int) (rng : MockRng)
    (hd : ∀ i, rng.daysAgo i < 30) (hs : ∀ i, rng.statusIdx i < 4) :
    generateMockOrderData today rng ≠ []
    ∧ (∀ o ∈ generateMockOrderData today rng, o.status ∈ statuses)
    ∧ (∀ o ∈ generateMockOrderData today rng,
        today - 30 < o.orderDate ∧ o.orderDate ≤ today)
    ∧ List.Sorted mockDateDesc (generateMockOrderData today rng) := by
  have hperm := List.perm_insertionSort mockDateDesc
    ((List.range (rng.countRand + 5)).map (fun i =>
      ({ orderId := "TEST-" ++ rng.orderIdStr i
         orderDate := today - rng.daysAgo i
         status := statuses.getD (rng.statusIdx i) "Shipped"
         amount := "INR " ++ rng.amountStr i } : MockOrder)))
  refine ⟨?_, ?_, ?_, List.sorted_insertionSort mockDateDesc _⟩
  · have hlen : (generateMockOrderData today rng).length = rng.countRand + 5 := by
      rw [generateMockOrderData, hperm.length_eq]
      simp
    intro hnil
    rw [hnil] at hlen
    simp at hlen
  · intro o ho
    rw [generateMockOrderData] at ho
    rw [hperm.mem_iff] at ho
    rcases List.mem_map.mp ho with ⟨i, _, rfl⟩
    exact statuses_getD_mem (rng.statusIdx i) (hs i)
  · intro o ho
    rw [generateMockOrderData] at ho
    rw [hperm.mem_iff] at ho
    rcases List.mem_map.mp ho with ⟨i, _, rfl⟩
    have := hd i
    constructor <;> simp <;> omega

/-- C5: when the order endpoint fails with a 403 and the participation probe
succeeds, `getRecentOrders` returns the synthetic set: non-empty, every
status in the fixed pool, every date within the last 30 days, sorted
descending by date. -/
theorem getRecentOrders_fallback_mock (env : SpEnv)
    (hTok : env.accessToken ≠ "")
    (hChk : env.checkAccess = true)
    (hLoop : fetchLoop (env.fetch (rdtHeader env)) 0 [] = Except.error 403)
    (hProbe : (getSellerProfile env.profileOutcome).hasAccess = true)
    (hd : ∀ i, env.rngD.daysAgo i < 30) (hs : ∀ i, env.rngD.statusIdx i < 4) :
    ∃ l, getRecentOrders env = Except.ok (Sum.inr l)
      ∧ l ≠ []
      ∧ (∀ o ∈ l, o.status ∈
          ["Shipped", "Pending", "Delivered", "Cancelled", "Unknown"])
      ∧ (∀ o ∈ l, env.today - 30 < o.orderDate ∧ o.orderDate ≤ env.today)
      ∧ List.Sorted mockDateDesc l := by
  obtain ⟨hne, hstat, hdate, hsort⟩ := generateMockOrderData_spec env.today env.rngD hd hs
  refine ⟨generateMockOrderData env.today env.rngD, ?_, hne, ?_, hdate, hsort⟩
  · rw [getRecentOrders]
    rw [if_neg hTok, hChk]
    simp only [Bool.true_eq_false, if_false]
    rw [recentOrdersLoop, hLoop, if_pos hProbe]
  · intro o ho
    have h := hstat o ho
    simp only [statuses, List.mem_cons, List.not_mem_nil, or_false] at h
    rcases h with h | h | h | h <;> simp [h]

/-- Concrete `Math.random` outcomes: always the smallest draw. -/
def witnessRng : MockRng := ⟨0, fun _ => 0, fun _ => 0, fun _ => "A1", fun _ => "450.00"⟩

/-- An upstream that answers every order request with HTTP 403 while the
participation probe succeeds with one marketplace. -/
def env403 : SpEnv :=
  { accessToken := "tok"
    checkAccess := true
    rdtOutcome := Except.error SpFailure.network
    profileOutcome := Except.ok 1
    countFetch := fun _ => Except.error 403
    fetch := fun _ _ => Except.error 403
    today := 0
    rngA := witnessRng
    rngB := witnessRng
    rngC := witnessRng
    rngD := witnessRng }

/-- Witness for C5 at the concrete 403-with-probe-success environment. -/
theorem getRecentOrders_fallback_mock_witness :
    ∃ l, getRecentOrders env403 = Except.ok (Sum.inr l)
      ∧ l ≠ []
      ∧ (∀ o ∈ l, o.status ∈
          ["Shipped", "Pending", "Delivered", "Cancelled", "Unknown"])
      ∧ (∀ o ∈ l, env403.today - 30 < o.orderDate ∧ o.orderDate ≤ env403.today)
      ∧ List.Sorted mockDateDesc l :=
  getRecentOrders_fallback_mock env403 (by decide) rfl
    (by rw [fetchLoop_eq]; rfl) rfl (by intro i; norm_num [env403, witnessRng])
    (by intro i; norm_num [env403, witnessRng])

/-- C6: when the order endpoint fails with a 403 and the participation probe
also fails, `getRecentOrders` raises the access-denied error and returns no
synthetic data. -/
theorem getRecentOrders_fallback_suppressed (env : SpEnv)
    (hTok : env.accessToken ≠ "")
    (hChk : env.checkAccess = true)
    (hLoop : fetchLoop (env.fetch (rdtHeader env)) 0 [] = Except.error 403)
    (hProbe : (getSellerProfile env.profileOutcome).hasAccess = false) :
    getRecentOrders env = Except.error SpError.accessDenied := by
  rw [getRecentOrders, if_neg hTok, hChk]
  simp only [Bool.true_eq_false, if_false]
  rw [recentOrdersLoop, hLoop]
  simp [hProbe]

/-- An upstream that answers every order request with HTTP 403 and whose
participation probe fails with a permission error. -/
def env403denied : SpEnv :=
  { env403 with profileOutcome := Except.error SpFailure.permission }

/-- Witness for C6 at the concrete 403-with-probe-failure environment. -/
theorem getRecentOrders_fallback_suppressed_witness :
    getRecentOrders env403denied = Except.error SpError.accessDenied :=
  getRecentOrders_fallback_suppressed env403denied (by decide) rfl
    (by rw [fetchLoop_eq]; rfl) rfl

/-- An arbitrary upstream order used by concrete upstream behaviours. -/
def dummyOrder : UpOrder := ⟨"A1", none, none, none⟩

/-- Accumulator bound for the pagination loop: if every page carries at most
`P` orders, the loop enters an iteration only while it holds fewer than 200
orders, so it ends with at most `199 + P`. -/
theorem fetchLoop_res_length (up : Nat → Except Nat Page) (P : Nat)
    (hP : ∀ i page, up i = Except.ok page → page.Orders.length ≤ P) :
    ∀ (k i : Nat) (acc : List UpOrder), 200 - acc.length ≤ k → acc.length ≤ 199 →
      ∀ res n, fetchLoop up i acc = Except.ok (res, n) → res.length ≤ 199 + P := by
  intro k
  induction k with
  | zero =>
    intro i acc hk hacc res n _
    omega
  | succ k ih =>
    intro i acc hk hacc res n heq
    rw [fetchLoop_eq] at heq
    split at heq
    · exact absurd heq (by simp)
    · rename_i page hup
      split at heq
      · rename_i hempty
        simp only [Except.ok.injEq, Prod.mk.injEq] at heq
        obtain ⟨rfl, rfl⟩ := heq
        omega
      · rename_i hempty
        split at heq
        · split at heq
          · rename_i hlt
            split at heq
            · exact absurd heq (by simp)
            · rename_i p res0 n0 hrec
              simp only [Except.ok.injEq, Prod.mk.injEq] at heq
              obtain ⟨rfl, rfl⟩ := heq
              have hpage : 1 ≤ page.Orders.length := by omega
              have hlen : (acc ++ page.Orders).length = acc.length + page.Orders.length :=
                List.length_append acc page.Orders
              exact ih (i + 1) (acc ++ page.Orders) (by omega) (by omega) res0 n0 hrec
          · rename_i hge
            simp only [Except.ok.injEq, Prod.mk.injEq] at heq
            obtain ⟨rfl, rfl⟩ := heq
            have hpl := hP i page hup
            have hlen : (acc ++ page.Orders).length = acc.length + page.Orders.length :=
              List.length_append acc page.Orders
            omega
        · simp only [Except.ok.injEq, Prod.mk.injEq] at heq
          obtain ⟨rfl, rfl⟩ := heq
          have hpl := hP i page hup
          have hlen : (acc ++ page.Orders).length = acc.length + page.Orders.length :=
            List.length_append acc page.Orders
          omega

/-- An upstream behaviour that answers every page request with exactly 50
orders and a continuation cursor. -/
def fiftyPerPage : Nat → Except Nat Page :=
  fun _ => Except.ok ⟨List.replicate 50 dummyOrder, some "NEXT"⟩

/-- Running the loop against `fiftyPerPage`: exactly 4 page requests and 200
accumulated orders. -/
theorem fiftyPerPage_run :
    fetchLoop fiftyPerPage 0 [] = Except.ok (List.replicate 200 dummyOrder, 4) := by
  rw [show fiftyPerPage = fun _ => Except.ok ⟨List.replicate 50 dummyOrder, some "NEXT"⟩ from rfl]
  rw [fetchLoop_eq]
  simp only [List.nil_append, List.length_replicate, List.length_append, truthy,
    ← List.replicate_add, reduceIte, String.reduceBNe]
  norm_num
  rw [fetchLoop_eq]
  simp only [List.nil_append, List.length_replicate, List.length_append, truthy,
    ← List.replicate_add, reduceIte, String.reduceBNe]
  norm_num
  rw [fetchLoop_eq]
  simp only [List.nil_append, List.length_replicate, List.length_append, truthy,
    ← List.replicate_add, reduceIte, String.reduceBNe]
  norm_num
  rw [fetchLoop_eq]
  simp only [List.nil_append, List.length_replicate, List.length_append, truthy,
    ← List.replicate_add, reduceIte, String.reduceBNe]
  norm_num


/-- An upstream behaviour that answers every page request with exactly 49
orders and a continuation cursor; the participation probe succeeds. -/
def env49 : SpEnv :=
  { accessToken := "tok"
    checkAccess := true
    rdtOutcome := Except.ok "rdt"
    profileOutcome := Except.ok 1
    countFetch := fun _ => Except.ok []
    fetch := fun _ _ => Except.ok ⟨List.replicate 49 dummyOrder, some "NEXT"⟩
    today := 0
    rngA := witnessRng
    rngB := witnessRng
    rngC := witnessRng
    rngD := witnessRng }

/-- Running the loop against 49-order pages: the cap check only stops the
loop once 200 orders have been reached, so a fifth page is fetched and 245
orders accumulate. -/
theorem fortyNinePerPage_run :
    fetchLoop (fun _ => Except.ok ⟨List.replicate 49 dummyOrder, some "NEXT"⟩) 0 []
      = Except.ok (List.replicate 245 dummyOrder, 5) := by
  rw [fetchLoop_eq]
  simp only [List.nil_append, List.length_replicate, List.length_append, truthy,
    ← List.replicate_add, reduceIte, String.reduceBNe]
  norm_num
  rw [fetchLoop_eq]
  simp only [List.nil_append, List.length_replicate, List.length_append, truthy,
    ← List.replicate_add, reduceIte, String.reduceBNe]
  norm_num
  rw [fetchLoop_eq]
  simp only [List.nil_append, List.length_replicate, List.length_append, truthy,
    ← List.replicate_add, reduceIte, String.reduceBNe]
  norm_num
  rw [fetchLoop_eq]
  simp only [List.nil_append, List.length_replicate, List.length_append, truthy,
    ← List.replicate_add, reduceIte, String.reduceBNe]
  norm_num
  rw [fetchLoop_eq]
  simp only [List.nil_append, List.length_replicate, List.length_append, truthy,
    ← List.replicate_add, reduceIte, String.reduceBNe]
  norm_num


/-- C2 counterexample: with pages of 49 orders each carrying a cursor,
`getRecentOrders` returns 245 orders — more than the claimed 200-order cap
(the loop stops fetching only once the accumulator has reached 200, it does
not truncate). -/
theorem getRecentOrders_cap_counterexample :
    ∃ l, getRecentOrders env49 = Except.ok (Sum.inl l)
      ∧ l.length = 245 ∧ ¬ l.length ≤ 200 := by
  refine ⟨(List.replicate 245 dummyOrder).map formatOrder, ?_,
    by simp only [List.length_map, List.length_replicate],
    by simp only [List.length_map, List.length_replicate]; omega⟩
  rw [getRecentOrders, if_neg (by decide : ¬ env49.accessToken = "")]
  rw [show env49.checkAccess = true from rfl]
  simp only [Bool.true_eq_false, if_false]
  rw [recentOrdersLoop]
  rw [show env49.fetch (rdtHeader env49)
      = fun _ => Except.ok ⟨List.replicate 49 dummyOrder, some "NEXT"⟩ from rfl]
  rw [fortyNinePerPage_run]

/-- C2 amended: the loop always terminates (`fetchLoop` is total) and stops
requesting pages once 200 orders are accumulated, so with pages of at most
50 orders the result holds at most 249 orders (not at most 200); with pages
of exactly 50 orders and a cursor on every page it issues exactly 4 page
requests and returns exactly 200 orders. -/
theorem getRecentOrders_pagination_amended (env : SpEnv)
    (hTok : env.accessToken ≠ "") (hChk : env.checkAccess = true)
    (hP : ∀ tok i page, env.fetch tok i = Except.ok page → page.Orders.length ≤ 50) :
    (∀ l, getRecentOrders env = Except.ok (Sum.inl l) → l.length ≤ 249)
    ∧ fetchLoop fiftyPerPage 0 [] = Except.ok (List.replicate 200 dummyOrder, 4) := by
  constructor
  · intro l hl
    rw [getRecentOrders, if_neg hTok, hChk] at hl
    simp only [Bool.true_eq_false, if_false] at hl
    rw [recentOrdersLoop] at hl
    split at hl
    · rename_i allOrders n hloop
      simp only [Except.ok.injEq, Sum.inl.injEq] at hl
      subst hl
      have hb := fetchLoop_res_length (env.fetch (rdtHeader env)) 50
        (fun i page h => hP (rdtHeader env) i page h) 200 0 [] (by simp) (by simp)
        allOrders n hloop
      simp only [List.length_map]
      omega
    · split at hl
      · exact absurd hl (by simp)
      · exact absurd hl (by simp)
    · exact absurd hl (by simp)
    · exact absurd hl (by simp)
    · exact absurd hl (by simp)
  · exact fiftyPerPage_run

/-- Witness for the amended C2 at the 49-order-page environment. -/
theorem getRecentOrders_pagination_amended_witness :
    (∀ l, getRecentOrders env49 = Except.ok (Sum.inl l) → l.length ≤ 249)
    ∧ fetchLoop fiftyPerPage 0 [] = Except.ok (List.replicate 200 dummyOrder, 4) :=
  getRecentOrders_pagination_amended env49 (by decide) rfl
    (by intro tok i page h; simp only [env49] at h;
        injection h with h2; subst h2; simp)

/-- An upstream holding 150 orders in the window: the single count request
(page size 100) is answered with 100 orders, while the pagination loop is
served three 50-order pages. -/
def env150 : SpEnv :=
  { accessToken := "tok"
    checkAccess := true
    rdtOutcome := Except.ok "rdt"
    profileOutcome := Except.ok 1
    countFetch := fun _ => Except.ok (List.replicate 100 dummyOrder)
    fetch := fun _ i =>
      if i < 2 then Except.ok ⟨List.replicate 50 dummyOrder, some "NEXT"⟩
      else Except.ok ⟨List.replicate 50 dummyOrder, none⟩
    today := 0
    rngA := witnessRng
    rngB := witnessRng
    rngC := witnessRng
    rngD := witnessRng }

/-- Running the pagination loop against the 150-order upstream returns all
150 orders in 3 pages. -/
theorem env150_run :
    fetchLoop (env150.fetch (rdtHeader env150)) 0 []
      = Except.ok (List.replicate 150 dummyOrder, 3) := by
  rw [show env150.fetch (rdtHeader env150) = (fun i =>
      if i < 2 then Except.ok ⟨List.replicate 50 dummyOrder, some "NEXT"⟩
      else Except.ok ⟨List.replicate 50 dummyOrder, none⟩) from rfl]
  rw [fetchLoop_eq]
  simp only [List.nil_append, List.length_replicate, List.length_append, truthy,
    ← List.replicate_add, reduceIte, String.reduceBNe]
  norm_num
  rw [fetchLoop_eq]
  simp only [List.nil_append, List.length_replicate, List.length_append, truthy,
    ← List.replicate_add, reduceIte, String.reduceBNe]
  norm_num
  rw [fetchLoop_eq]
  simp only [List.nil_append, List.length_replicate, List.length_append, truthy,
    ← List.replicate_add, reduceIte, String.reduceBNe]
  norm_num
  simp [← List.replicate_add]

/-- C7 counterexample: against the 150-order upstream, `getOrderCount`
returns 100 (the length of its own single, 100-capped request) while
`getRecentOrders` returns 150 orders — the count is not the length of the
retrieved list. -/
theorem getOrderCount_divergence_counterexample :
    getOrderCount env150 = Except.ok 100
    ∧ (∃ l, getRecentOrders env150 = Except.ok (Sum.inl l) ∧ l.length = 150)
    ∧ (100 : Nat) ≠ 150 := by
  refine ⟨?_, ⟨(List.replicate 150 dummyOrder).map formatOrder, ?_,
    by simp only [List.length_map, List.length_replicate]⟩, by omega⟩
  · rw [getOrderCount, if_neg (by decide : ¬ env150.accessToken = "")]
    rw [show env150.checkAccess = true from rfl]
    simp only [Bool.true_eq_false, if_false]
    rw [orderCountFetch]
    rw [show env150.countFetch (rdtHeader env150)
        = Except.ok (List.replicate 100 dummyOrder) from rfl]
    simp only [List.length_replicate]
  · rw [getRecentOrders, if_neg (by decide : ¬ env150.accessToken = "")]
    rw [show env150.checkAccess = true from rfl]
    simp only [Bool.true_eq_false, if_false]
    rw [recentOrdersLoop, env150_run]

/-- C7 amended: `getOrderCount` is an independent single request whose
response length is the count, so it agrees with the length of
`getRecentOrders` exactly when the upstream answers both requests with the
same single page and no continuation cursor; in general (upstream larger
than one page) the two diverge, as the counterexample shows. -/
theorem getOrderCount_singlePage_agree (env : SpEnv) (os : List UpOrder)
    (hTok : env.accessToken ≠ "") (hChk : env.checkAccess = true)
    (hCount : env.countFetch (rdtHeader env) = Except.ok os)
    (hFetch : env.fetch (rdtHeader env) 0 = Except.ok ⟨os, none⟩) :
    ∃ l, getRecentOrders env = Except.ok (Sum.inl l)
      ∧ getOrderCount env = Except.ok l.length := by
  have hloop : fetchLoop (env.fetch (rdtHeader env)) 0 [] = Except.ok (os, 1) := by
    rw [fetchLoop_eq, hFetch]
    by_cases h0 : os.length = 0
    · have : os = [] := List.length_eq_zero.mp h0
      simp [h0, this]
    · simp [h0, truthy]
  refine ⟨os.map formatOrder, ?_, ?_⟩
  · rw [getRecentOrders, if_neg hTok, hChk]
    simp only [Bool.true_eq_false, if_false]
    rw [recentOrdersLoop, hloop]
  · rw [getOrderCount, if_neg hTok, hChk]
    simp only [Bool.true_eq_false, if_false]
    rw [orderCountFetch, hCount]
    simp only [List.length_map]

/-- An upstream whose full window of orders fits in one page. -/
def envOnePage : SpEnv :=
  { accessToken := "tok"
    checkAccess := true
    rdtOutcome := Except.ok "rdt"
    profileOutcome := Except.ok 1
    countFetch := fun _ => Except.ok [dummyOrder, dummyOrder]
    fetch := fun _ _ => Except.ok ⟨[dummyOrder, dummyOrder], none⟩
    today := 0
    rngA := witnessRng
    rngB := witnessRng
    rngC := witnessRng
    rngD := witnessRng }

/-- Witness for the amended C7 at a two-order single-page upstream. -/
theorem getOrderCount_singlePage_agree_witness :
    ∃ l, getRecentOrders envOnePage = Except.ok (Sum.inl l)
      ∧ getOrderCount envOnePage = Except.ok l.length :=
  getOrderCount_singlePage_agree envOnePage [dummyOrder, dummyOrder]
    (by decide) rfl rfl rfl

/-- C8: every failure of the restricted-data-token request — auth, network
or permission — is swallowed: `getRestrictedDataToken` returns `none`
instead of throwing, the `x-amz-access-token` header falls back to the base
access token, and both pipelines proceed as the plain loop run with the base
token. -/
theorem getRestrictedDataToken_bestEffort (env : SpEnv) (f : SpFailure)
    (hF : env.rdtOutcome = Except.error f)
    (hTok : env.accessToken ≠ "") (hChk : env.checkAccess = true) :
    getRestrictedDataToken env.accessToken env.rdtOutcome = none
    ∧ rdtHeader env = env.accessToken
    ∧ getRecentOrders env = recentOrdersLoop env env.accessToken
    ∧ getOrderCount env = orderCountFetch env env.accessToken := by
  have h1 : getRestrictedDataToken env.accessToken env.rdtOutcome = none := by
    simp [getRestrictedDataToken, hF, hTok]
  have h2 : rdtHeader env = env.accessToken := by
    rw [rdtHeader, h1, xAmzHeader]
  refine ⟨h1, h2, ?_, ?_⟩
  · rw [getRecentOrders, if_neg hTok, hChk]
    simp only [Bool.true_eq_false, if_false]
    rw [h2]
  · rw [getOrderCount, if_neg hTok, hChk]
    simp only [Bool.true_eq_false, if_false]
    rw [h2]

/-- An environment whose restricted-data-token request fails with an auth
error while the order pages themselves succeed. -/
def envRdtFail : SpEnv :=
  { accessToken := "tok"
    checkAccess := true
    rdtOutcome := Except.error SpFailure.auth
    profileOutcome := Except.ok 1
    countFetch := fun _ => Except.ok [dummyOrder]
    fetch := fun _ _ => Except.ok ⟨[dummyOrder], none⟩
    today := 0
    rngA := witnessRng
    rngB := witnessRng
    rngC := witnessRng
    rngD := witnessRng }

/-- Witness for C8 at a concrete failing RDT request. -/
theorem getRestrictedDataToken_bestEffort_witness :
    getRestrictedDataToken envRdtFail.accessToken envRdtFail.rdtOutcome = none
    ∧ rdtHeader envRdtFail = envRdtFail.accessToken
    ∧ getRecentOrders envRdtFail = recentOrdersLoop envRdtFail envRdtFail.accessToken
    ∧ getOrderCount envRdtFail = orderCountFetch envRdtFail envRdtFail.accessToken :=
  getRestrictedDataToken_bestEffort envRdtFail SpFailure.auth rfl (by decide) rfl

/-- A string of length zero is the empty string. -/
theorem string_of_length_zero (s : String) (h : s.length = 0) : s = "" := by
  cases s with
  | mk data =>
    simp [String.length] at h
    simp [h]

/-- A currency-prefixed amount `a ++ " " ++ b` is never `"0"` and never
empty. -/
theorem amountString_ne (a b : String) : a ++ " " ++ b ≠ "0" ∧ a ++ " " ++ b ≠ "" := by
  have hsp : (" " : String).length = 1 := rfl
  constructor
  · intro hc
    have hl := congrArg String.length hc
    simp only [String.length_append, hsp] at hl
    have hz : ("0" : String).length = 1 := rfl
    rw [hz] at hl
    have ha : a = "" := string_of_length_zero a (by omega)
    have hb : b = "" := string_of_length_zero b (by omega)
    rw [ha, hb] at hc
    exact absurd hc (by decide)
  · intro hc
    have hl := congrArg String.length hc
    simp only [String.length_append, hsp] at hl
    have hz : ("" : String).length = 0 := rfl
    rw [hz] at hl
    omega

/-- C9: the `amount` of a produced `OrderRecord` is `"INR 450.00"` for an
upstream order with `OrderTotal = {CurrencyCode: "INR", Amount: "450.00"}`,
is the `"N/A"` marker when `OrderTotal` is absent, and is never `"0"` nor
the empty string. -/
theorem formatOrder_amount (o : UpOrder) :
    (o.OrderTotal = some ⟨"INR", "450.00"⟩ → (formatOrder o).amount = "INR 450.00")
    ∧ (o.OrderTotal = none → (formatOrder o).amount = "N/A")
    ∧ (formatOrder o).amount ≠ "0"
    ∧ (formatOrder o).amount ≠ "" := by
  refine ⟨?_, ?_, ?_, ?_⟩
  · intro h
    simp [formatOrder, h]
  · intro h
    simp [formatOrder, h]
  · cases ho : o.OrderTotal with
    | none => simp [formatOrder, ho]
    | some t =>
      have := (amountString_ne t.CurrencyCode t.Amount).1
      simp only [formatOrder, ho]
      exact this
  · cases ho : o.OrderTotal with
    | none => simp [formatOrder, ho]
    | some t =>
      have := (amountString_ne t.CurrencyCode t.Amount).2
      simp only [formatOrder, ho]
      exact this

/-- Witness for C9: a concrete order with the INR total and one with no
total. -/
theorem formatOrder_amount_witness :
    (formatOrder ⟨"O1", none, none, some ⟨"INR", "450.00"⟩⟩).amount = "INR 450.00"
    ∧ (formatOrder ⟨"O2", none, none, none⟩).amount = "N/A" :=
  ⟨(formatOrder_amount ⟨"O1", none, none, some ⟨"INR", "450.00"⟩⟩).1 rfl,
    (formatOrder_amount ⟨"O2", none, none, none⟩).2.1 rfl⟩

/-- The base64 alphabet, as used by `Buffer.toString("base64")`. -/
def b64chars : List Char :=
  "ABCDEFGHIJKLMNOPQRSTUVWXYZabcdefghijklmnopqrstuvwxyz0123456789+/".toList

/-- Character of a six-bit group. -/
def b64chr (n : Nat) : Char := b64chars.getD n 'A'

/-- Six-bit value of a base64 character. -/
def b64val (c : Char) : Nat := b64chars.indexOf c

/-- Decoding inverts encoding on each six-bit group. -/
theorem b64val_b64chr_fin : ∀ n : Fin 64, b64val (b64chr n.val) = n.val := by decide

/-- Decoding inverts encoding on each six-bit group (`Nat` form). -/
theorem b64val_b64chr (n : Nat) (h : n < 64) : b64val (b64chr n) = n :=
  b64val_b64chr_fin ⟨n, h⟩

/-- Alphabet characters are never the padding character. -/
theorem b64chr_ne_pad_fin : ∀ n : Fin 64, b64chr n.val ≠ '=' := by decide

/-- Alphabet characters are never the padding character (`Nat` form). -/
theorem b64chr_ne_pad (n : Nat) (h : n < 64) : b64chr n ≠ '=' :=
  b64chr_ne_pad_fin ⟨n, h⟩

/-- Model of base64 encoding (`Buffer.toString("base64")`): bytes are taken
three at a time into four sextets, with `=` padding for a short final
group. -/
def encodeB64 : List Nat → List Char
  | [] => []
  | [a] => [b64chr (a / 4), b64chr (a % 4 * 16), '=', '=']
  | [a, b] => [b64chr (a / 4), b64chr (a % 4 * 16 + b / 16), b64chr (b % 16 * 4), '=']
  | a :: b :: c :: rest =>
    b64chr (a / 4) :: b64chr (a % 4 * 16 + b / 16) :: b64chr (b % 16 * 4 + c / 64)
      :: b64chr (c % 64) :: encodeB64 rest

/-- Model of base64 decoding (`Buffer.from(s, "base64")`): four characters
at a time, honouring `=` padding. -/
def decodeB64 : List Char → List Nat
  | w :: x :: y :: z :: rest =>
    if y = '=' then [b64val w * 4 + b64val x / 16]
    else if z = '=' then
      [b64val w * 4 + b64val x / 16, b64val x % 16 * 16 + b64val y / 4]
    else (b64val w * 4 + b64val x / 16) :: (b64val x % 16 * 16 + b64val y / 4)
      :: (b64val y % 4 * 64 + b64val z) :: decodeB64 rest
  | _ => []

/-- Base64 decoding inverts encoding on byte lists. -/
theorem decode_encode : ∀ bs : List Nat, (∀ b ∈ bs, b < 256) →
    decodeB64 (encodeB64 bs) = bs
  | [], _ => rfl
  | [a], h => by
    have ha : a < 256 := h a (by simp)
    simp only [encodeB64, decodeB64]
    rw [if_pos trivial]
    rw [b64val_b64chr (a / 4) (by omega), b64val_b64chr (a % 4 * 16) (by omega)]
    simp only [List.cons.injEq, and_true]
    omega
  | [a, b], h => by
    have ha : a < 256 := h a (by simp)
    have hb : b < 256 := h b (by simp)
    simp only [encodeB64, decodeB64]
    rw [if_neg (b64chr_ne_pad (b % 16 * 4) (by omega)), if_pos trivial]
    rw [b64val_b64chr (a / 4) (by omega), b64val_b64chr (a % 4 * 16 + b / 16) (by omega),
      b64val_b64chr (b % 16 * 4) (by omega)]
    simp only [List.cons.injEq, and_true]
    omega
  | a :: b :: c :: d :: rest, h => by
    have ha : a < 256 := h a (by simp)
    have hb : b < 256 := h b (by simp)
    have hc : c < 256 := h c (by simp)
    have ih := decode_encode (d :: rest) (fun x hx => h x (by simp at hx ⊢; tauto))
    simp only [encodeB64, decodeB64]
    rw [if_neg (b64chr_ne_pad (b % 16 * 4 + c / 64) (by omega)),
      if_neg (b64chr_ne_pad (c % 64) (by omega))]
    rw [b64val_b64chr (a / 4) (by omega), b64val_b64chr (a % 4 * 16 + b / 16) (by omega),
      b64val_b64chr (b % 16 * 4 + c / 64) (by omega), b64val_b64chr (c % 64) (by omega)]
    rw [ih]
    simp only [List.cons.injEq, and_true]
    refine ⟨by omega, by omega, by omega⟩
  | [a, b, c], h => by
    have ha : a < 256 := h a (by simp)
    have hb : b < 256 := h b (by simp)
    have hc : c < 256 := h c (by simp)
    simp only [encodeB64, decodeB64]
    rw [if_neg (b64chr_ne_pad (b % 16 * 4 + c / 64) (by omega)),
      if_neg (b64chr_ne_pad (c % 64) (by omega))]
    rw [b64val_b64chr (a / 4) (by omega), b64val_b64chr (a % 4 * 16 + b / 16) (by omega),
      b64val_b64chr (b % 16 * 4 + c / 64) (by omega), b64val_b64chr (c % 64) (by omega)]
    simp only [List.cons.injEq, and_true]
    refine ⟨by omega, by omega, by omega⟩

/-- Model of the JSON string escaping `JSON.stringify` applies to the quote
and backslash characters (control characters never occur in the identifiers
this route serialises). -/
def escapeJsonChar (c : Char) : List Char :=
  if c = '"' ∨ c = '\\' then ['\\', c] else [c]

/-- Escape every character of a string body. -/
def jsonEscape (s : List Char) : List Char := s.flatMap escapeJsonChar

/-- The leading characters of `JSON.stringify({userId, timestamp})` up to
the opening quote of the `userId` value. -/
def statePrefix : List Char := "\x7b\"userId\":\"".toList

/-- Model of `JSON.stringify({userId, timestamp: Date.now()})` as produced
by the `/auth-url` route: `userId` first, then the timestamp rendered as
decimal digits (`tsChars`). -/
def jsonStateChars (userId : List Char) (tsChars : List Char) : List Char :=
  statePrefix ++ jsonEscape userId ++ "\",\"timestamp\":".toList
    ++ tsChars ++ "\x7d".toList

/-- Model of reading the JSON string value that follows an opening quote, as
`JSON.parse` does: stop at an unescaped quote, unescape `\"` and `\\`. -/
def parseStringBody : List Char → Option (List Char)
  | [] => none
  | c :: rest =>
    if c = '"' then some []
    else if c = '\\' then
      match rest with
      | [] => none
      | d :: rest2 => (parseStringBody rest2).map (d :: ·)
    else (parseStringBody rest).map (c :: ·)

/-- Model of `JSON.parse(...).userId` on the strings this flow produces:
match the fixed object prefix and read the `userId` string value. -/
def parseUserIdFromJson (cs : List Char) : Option (List Char) :=
  if cs.take statePrefix.length = statePrefix then
    parseStringBody (cs.drop statePrefix.length)
  else none

/-- Reading a string body stops at the closing quote. -/
theorem parseStringBody_quote (rest : List Char) : parseStringBody ('"' :: rest) = some [] := by
  rw [parseStringBody.eq_def]
  simp

/-- Reading a string body unescapes a backslash pair. -/
theorem parseStringBody_escaped (c : Char) (rest : List Char) :
    parseStringBody ('\\' :: c :: rest) = (parseStringBody rest).map (c :: ·) := by
  rw [parseStringBody.eq_def]
  simp

/-- Reading a string body keeps an ordinary character. -/
theorem parseStringBody_plain (c : Char) (rest : List Char) (h1 : c ≠ '"') (h2 : c ≠ '\\') :
    parseStringBody (c :: rest) = (parseStringBody rest).map (c :: ·) := by
  rw [parseStringBody.eq_def]
  simp only [if_neg h1, if_neg h2]

/-- Reading back an escaped string body up to the closing quote recovers the
original characters. -/
theorem parseStringBody_jsonEscape :
    ∀ (u suffix : List Char), parseStringBody (jsonEscape u ++ '"' :: suffix) = some u
  | [], suffix => by
    simp only [jsonEscape, List.flatMap_nil, List.nil_append]
    exact parseStringBody_quote suffix
  | c :: cs, suffix => by
    have ih := parseStringBody_jsonEscape cs suffix
    by_cases hc : c = '"' ∨ c = '\\'
    · simp only [jsonEscape, List.flatMap_cons, escapeJsonChar, if_pos hc, List.cons_append,
        List.nil_append, List.append_assoc]
      rw [parseStringBody_escaped]
      simp only [jsonEscape] at ih
      rw [ih]
      rfl
    · push_neg at hc
      simp only [jsonEscape, List.flatMap_cons, escapeJsonChar,
        if_neg (by tauto : ¬ (c = '"' ∨ c = '\\')), List.cons_append, List.nil_append]
      rw [parseStringBody_plain c _ hc.1 hc.2]
      simp only [jsonEscape] at ih
      rw [ih]
      rfl

/-- Parsing the serialised state object yields the `userId` it was built
from. -/
theorem parse_json_state (u ts : List Char) :
    parseUserIdFromJson (jsonStateChars u ts) = some u := by
  have hmid : ("\",\"timestamp\":".toList : List Char)
      = '"' :: ",\"timestamp\":".toList := by decide
  rw [parseUserIdFromJson, jsonStateChars]
  simp only [List.append_assoc]
  rw [List.take_left, List.drop_left, if_pos rfl]
  rw [hmid]
  simp only [List.cons_append]
  exact parseStringBody_jsonEscape u _

/-- Character codes survive the byte round trip. -/
theorem map_ofNat_toNat (l : List Char) : (l.map Char.toNat).map Char.ofNat = l := by
  rw [List.map_map]
  simp only [Function.comp_def, Char.ofNat_toNat, List.map_id']

/-- The `state` value built by the `/auth-url` route:
`Buffer.from(JSON.stringify({userId, timestamp})).toString("base64")`. -/
def stateEncode (userId : List Char) (tsChars : List Char) : List Char :=
  encodeB64 ((jsonStateChars userId tsChars).map Char.toNat)

/-- The `userId` recovered by the `/callback` route:
`JSON.parse(Buffer.from(state, "base64").toString()).userId`. -/
def stateDecodeUserId (st : List Char) : Option (List Char) :=
  parseUserIdFromJson ((decodeB64 st).map Char.ofNat)

/-- The serialised state object is a list of single-byte codes whenever the
user identifier and the timestamp digits are ASCII. -/
theorem jsonStateChars_bytes_lt (userId tsChars : List Char)
    (hu : ∀ c ∈ userId, c.toNat < 128)
    (hts : ∀ c ∈ tsChars, c.toNat < 128) :
    ∀ b ∈ (jsonStateChars userId tsChars).map Char.toNat, b < 256 := by
  intro b hb
  rcases List.mem_map.mp hb with ⟨c, hc, rfl⟩
  have hpre : ∀ c ∈ statePrefix, c.toNat < 256 := by decide
  have hmid : ∀ c ∈ ("\",\"timestamp\":".toList : List Char), c.toNat < 256 := by decide
  have hcl : ∀ c ∈ ("\x7d".toList : List Char), c.toNat < 256 := by decide
  simp only [jsonStateChars, List.append_assoc, List.mem_append] at hc
  rcases hc with hc | hc | hc | hc | hc
  · exact hpre c hc
  · rcases List.mem_flatMap.mp hc with ⟨d, hd, hcd⟩
    rw [escapeJsonChar] at hcd
    split_ifs at hcd <;>
      simp only [List.mem_cons, List.not_mem_nil, or_false] at hcd
    · rcases hcd with rfl | rfl
      · decide
      · exact lt_trans (hu _ hd) (by omega)
    · subst hcd
      exact lt_trans (hu _ hd) (by omega)
  · exact hmid c hc
  · exact lt_trans (hts c hc) (by omega)
  · exact hcl c hc

/-- C10: the OAuth `state` value built by the `/auth-url` route (base64 of
the JSON object holding `userId` and a timestamp) decodes in the `/callback`
route back to the same `userId`, for every identifier made of printable
ASCII characters and every timestamp digit string — so the callback resolves
the account that initiated the flow. -/
theorem oauthState_roundTrip (userId tsChars : List Char)
    (hu : ∀ c ∈ userId, 32 ≤ c.toNat ∧ c.toNat < 128)
    (hts : ∀ c ∈ tsChars, c.toNat < 128) :
    stateDecodeUserId (stateEncode userId tsChars) = some userId := by
  rw [stateEncode, stateDecodeUserId]
  rw [decode_encode _ (jsonStateChars_bytes_lt userId tsChars (fun c hc => (hu c hc).2) hts)]
  rw [map_ofNat_toNat]
  exact parse_json_state userId tsChars

/-- Witness for C10 at a concrete Mongo object identifier and timestamp. -/
theorem oauthState_roundTrip_witness :
    stateDecodeUserId (stateEncode "507f1f77bcf86cd799439011".toList "1700000000000".toList)
      = some "507f1f77bcf86cd799439011".toList :=
  oauthState_roundTrip "507f1f77bcf86cd799439011".toList "1700000000000".toList
    (by decide) (by decide)
